import Mathlib

/-!
Verification of the natural-language specification of the
ai-business-intelligence repository against its code.

The repository's checked-in sources are the frontend (registration page
with zod schema and password-strength meter, axios API client with a
401-refresh interceptor) plus documentation and scripts. The backend
pipeline described by the spec (SQL Synthesizer, Safety Validator,
Connection Pool Manager, Result Cache, Execution Coordinator, Dashboard
Session Manager) is not present in the sources; those components are
modelled here directly from the spec's words, each such definition marked
`Modelled from the spec:` in its doc comment.

Embedding conventions: TypeScript strings become Lean `String`, JS regex
character-class tests (`/[a-z]/` etc.) become `List.any` over the
string's character list with the corresponding ASCII `Char` predicate, fallible operations return `Option`,
and stateful components are explicit state-passing functions or small
transition systems.
-/

/-! ## Registration page (src/unnamed/part_006) -/

/-- Score component of `getPasswordStrength`: one point for each of
length ≥ 8, length ≥ 12, a lowercase letter, an uppercase letter,
a digit, and a non-alphanumeric character. -/
def passwordScore (password : String) : Nat :=
  (if 8 ≤ password.length then 1 else 0) +
  (if 12 ≤ password.length then 1 else 0) +
  (if password.data.any Char.isLower then 1 else 0) +
  (if password.data.any Char.isUpper then 1 else 0) +
  (if password.data.any Char.isDigit then 1 else 0) +
  (if password.data.any (fun c => !(c.isLower || c.isUpper || c.isDigit)) then 1 else 0)

/-- The `getPasswordStrength` function of the registration page: computes
the score and maps it to a label ("Weak" for score ≤ 2, "Fair" for
score ≤ 4, "Strong" otherwise). The `color` field of the TypeScript
return value is a pure function of the label and is omitted. -/
def getPasswordStrength (password : String) : Nat × String :=
  let score := passwordScore password
  if score ≤ 2 then (score, "Weak")
  else if score ≤ 4 then (score, "Fair")
  else (score, "Strong")

/-- A candidate registration form, the input type of `registerSchema`. -/
structure RegisterForm where
  fullName : String
  email : String
  password : String
  confirmPassword : String
deriving Repr, DecidableEq

/-- The password rules of `registerSchema`: at least 8 characters, a
lowercase letter, an uppercase letter, and a digit (zod
`.min(8).regex(/[a-z]/).regex(/[A-Z]/).regex(/[0-9]/)`). -/
def meetsPasswordRules (password : String) : Bool :=
  8 ≤ password.length &&
  password.data.any Char.isLower &&
  password.data.any Char.isUpper &&
  password.data.any Char.isDigit

/-- Validation issues collected by `registerSchema`, parameterized by
zod's email validity test (an external library predicate). Mirrors the
zod chain: `fullName.min(2)`, `email.email()`, the password rules, and
the `.refine` equality of password and confirmPassword. -/
def registerIssues (isValidEmail : String → Bool) (f : RegisterForm) : List String :=
  (if 2 ≤ f.fullName.length then [] else ["Name must be at least 2 characters"]) ++
  (if isValidEmail f.email then [] else ["Please enter a valid email address"]) ++
  (if 8 ≤ f.password.length then [] else ["Password must be at least 8 characters"]) ++
  (if f.password.data.any Char.isLower then [] else ["Password must contain a lowercase letter"]) ++
  (if f.password.data.any Char.isUpper then [] else ["Password must contain an uppercase letter"]) ++
  (if f.password.data.any Char.isDigit then [] else ["Password must contain a number"]) ++
  (if f.password = f.confirmPassword then [] else ["Passwords do not match"])

/-- Parsing with `registerSchema`: succeeds (returns the form) exactly
when no validation issue is produced. -/
def registerParse (isValidEmail : String → Bool) (f : RegisterForm) : Option RegisterForm :=
  if registerIssues isValidEmail f = [] then some f else none

/-! ## Axios response interceptor (src/frontend/src/services/api.ts) -/

/-- Browser-side state touched by the interceptor: the two localStorage
tokens and the window location. -/
structure BrowserState where
  accessToken : Option String
  refreshToken : Option String
  location : String
deriving Repr, DecidableEq

/-- Outcome of the token-refresh POST to `/auth/refresh`. -/
inductive RefreshOutcome where
  | ok (newAccess : String)
  | failed
deriving Repr, DecidableEq

/-- Action the interceptor takes on a response error: replay the original
request (carrying the `_retry` flag it set), or propagate the rejection. -/
inductive ErrorAction where
  | replay (newAccess : String) (retryFlag : Bool)
  | reject
deriving Repr, DecidableEq

/-- The axios response-error interceptor of api.ts. Inputs: current
browser state, the HTTP status of the failed response, the request's
`_retry` flag, and the outcome the refresh endpoint would give. Returns
the new browser state, the action taken, and the number of token-refresh
attempts made. -/
def handleResponseError (st : BrowserState) (status : Nat) (retryFlag : Bool)
    (refresh : RefreshOutcome) : BrowserState × ErrorAction × Nat :=
  if status = 401 then
    match st.refreshToken, retryFlag with
    | some _, false =>
      match refresh with
      | .ok tok =>
        ({ st with accessToken := some tok }, .replay tok true, 1)
      | .failed =>
        ({ accessToken := none, refreshToken := none, location := "/login" }, .reject, 1)
    | _, _ =>
      ({ accessToken := none, refreshToken := none, location := "/login" }, .reject, 0)
  else (st, .reject, 0)

/-! ## SQL Synthesizer (spec section 4.2; not present in the sources) -/

/-- Modelled from the spec: the SQL dialects of the configured data
sources (README: PostgreSQL, MySQL, SQLite). -/
inductive Dialect where
  | postgres
  | mysql
  | sqlite
deriving Repr, DecidableEq

/-- Modelled from the spec: the operation kind of a QueryIntent. -/
inductive AggOp where
  | raw
  | sum
  | count
  | avg
deriving Repr, DecidableEq

/-- Modelled from the spec: a comparison operator of an intent filter. -/
inductive CmpOp where
  | eq
  | ne
  | lt
  | le
  | gt
  | ge
deriving Repr, DecidableEq

/-- Modelled from the spec: an intent filter with a user-supplied
literal value taken from the natural-language text. -/
structure IntentFilter where
  column : String
  op : CmpOp
  value : String
deriving Repr, DecidableEq

/-- Modelled from the spec: the time range of a QueryIntent, whose two
bounds are user-supplied literal values. -/
structure TimeRange where
  column : String
  startVal : String
  endVal : String
deriving Repr, DecidableEq

/-- Modelled from the spec: QueryIntent (operation kind, metric,
dimensions, filters, time range, sort, limit). The confidence score
plays no role in synthesis and is omitted. -/
structure QueryIntent where
  opKind : AggOp
  metric : Option String
  dimensions : List String
  table : String
  timeRange : Option TimeRange
  filters : List IntentFilter
  sortBy : Option String
  limit : Option Nat
deriving Repr, DecidableEq

/-- Modelled from the spec: GeneratedQuery (dialect, parameterized SQL
text, ordered parameter bindings, and the row-limit clause kept
structured so the Safety Validator can inspect and inject it). -/
structure GeneratedQuery where
  dialect : Dialect
  sql : String
  params : List String
  limitClause : Option Nat
deriving Repr, DecidableEq

/-- Modelled from the spec: the per-dialect parameter-placeholder
grammar entry (numbered for postgres, positional otherwise). -/
def placeholder : Dialect → Nat → String
  | .postgres, i => "$" ++ toString i
  | .mysql, _ => "?"
  | .sqlite, _ => "?"

/-- Modelled from the spec: the per-dialect identifier-quoting grammar
entry. -/
def quoteIdent : Dialect → String → String
  | .mysql, s => "`" ++ s ++ "`"
  | .postgres, s => "\"" ++ s ++ "\""
  | .sqlite, s => "\"" ++ s ++ "\""

/-- SQL rendering of a comparison operator. -/
def CmpOp.sqlText : CmpOp → String
  | .eq => "="
  | .ne => "<>"
  | .lt => "<"
  | .le => "<="
  | .gt => ">"
  | .ge => ">="

/-- WHERE-clause conditions for the intent filters, numbering parameter
placeholders from `k`; the literal values go to the parameter list, never
into the text. -/
def filterConds (d : Dialect) : Nat → List IntentFilter → List String
  | _, [] => []
  | k, f :: fs =>
    (quoteIdent d f.column ++ " " ++ f.op.sqlText ++ " " ++ placeholder d k)
      :: filterConds d (k + 1) fs

/-- WHERE-clause conditions for the time range, using parameter
placeholders 1 and 2; the bounds go to the parameter list. -/
def timeConds (d : Dialect) : Option TimeRange → List String
  | some t =>
    [quoteIdent d t.column ++ " >= " ++ placeholder d 1,
     quoteIdent d t.column ++ " < " ++ placeholder d 2]
  | none => []

/-- Number of bound parameters contributed by the time range. -/
def timeParamCount : Option TimeRange → Nat
  | some _ => 2
  | none => 0

/-- Ordered parameter bindings contributed by the time range. -/
def timeParams : Option TimeRange → List String
  | some t => [t.startVal, t.endVal]
  | none => []

/-- SELECT-list of the generated query: the quoted dimensions followed by
the aggregate expression of the operation kind. -/
def selectList (d : Dialect) (i : QueryIntent) : String :=
  let metricExpr :=
    match i.metric with
    | some m => quoteIdent d m
    | none => "*"
  let aggExprs :=
    match i.opKind with
    | .raw => []
    | .sum => ["SUM(" ++ metricExpr ++ ")"]
    | .count => ["COUNT(" ++ metricExpr ++ ")"]
    | .avg => ["AVG(" ++ metricExpr ++ ")"]
  String.intercalate ", " (i.dimensions.map (quoteIdent d) ++ aggExprs)

/-- WHERE clause of the generated query: time-range conditions first,
then the filter conditions, joined with AND. -/
def whereClause (d : Dialect) (i : QueryIntent) : String :=
  match timeConds d i.timeRange ++
        filterConds d (timeParamCount i.timeRange + 1) i.filters with
  | [] => ""
  | conds => " WHERE " ++ String.intercalate " AND " conds

/-- GROUP BY clause: present when an aggregate is computed over at least
one dimension. -/
def groupByClause (d : Dialect) (i : QueryIntent) : String :=
  match i.opKind, i.dimensions with
  | .raw, _ => ""
  | _, [] => ""
  | _, dims => " GROUP BY " ++ String.intercalate ", " (dims.map (quoteIdent d))

/-- ORDER BY clause from the intent's sort column. -/
def orderByClause (d : Dialect) (i : QueryIntent) : String :=
  match i.sortBy with
  | some c => " ORDER BY " ++ quoteIdent d c
  | none => ""

/-- Parameterized SQL text of the generated query (the row-limit clause
is kept structured in `GeneratedQuery.limitClause`). -/
def sqlText (d : Dialect) (i : QueryIntent) : String :=
  "SELECT " ++ selectList d i ++ " FROM " ++ quoteIdent d i.table ++
    whereClause d i ++ groupByClause d i ++ orderByClause d i

/-- Modelled from the spec: the SQL Synthesizer. Deterministically
compiles an intent to dialect-aware parameterized SQL; every
user-supplied literal (time-range bounds, then filter values, in intent
order) becomes a bound parameter. -/
def synthesize (i : QueryIntent) (d : Dialect) : GeneratedQuery :=
  { dialect := d
    sql := sqlText d i
    params := timeParams i.timeRange ++ i.filters.map IntentFilter.value
    limitClause := i.limit }

/-- The user-supplied literal values present in an intent (the data-model
reading of "literal values present in the original natural-language
text"): the time-range bounds and the filter values. -/
def literalValues (i : QueryIntent) : List String :=
  timeParams i.timeRange ++ i.filters.map IntentFilter.value

/-- Replace every user-supplied literal value of the intent by the image
under `g`, leaving the structure (columns, operators, counts) unchanged. -/
def mapLiterals (g : String → String) (i : QueryIntent) : QueryIntent :=
  { i with
    timeRange := i.timeRange.map fun t =>
      { t with startVal := g t.startVal, endVal := g t.endVal }
    filters := i.filters.map fun f => { f with value := g f.value } }

/-! ## Safety Validator and execution row cap (spec sections 4.3, data
model; not present in the sources) -/

/-- Modelled from the spec: the Safety Validator's row-limit injection.
Injects an explicit row-limit clause equal to the global maximum if the
synthesizer omitted one, and caps a present one at the global maximum. -/
def validateLimit (globalMax : Nat) (q : GeneratedQuery) : GeneratedQuery :=
  match q.limitClause with
  | none => { q with limitClause := some globalMax }
  | some n => { q with limitClause := some (min n globalMax) }

/-- Modelled from the spec: ExecutionResult (rows, truncated flag; the
column metadata, duration and cache-hit flag play no role in the row-cap
claim). -/
structure ExecutionResult (Row : Type) where
  rows : List Row
  truncated : Bool
deriving Repr, DecidableEq

/-- Modelled from the spec: execution of a validated query against a data
source holding `source` rows; the row-limit clause truncates the result. -/
def executeQuery {Row : Type} (source : List Row) (q : GeneratedQuery) :
    ExecutionResult Row :=
  match q.limitClause with
  | some n => { rows := source.take n, truncated := decide (n < source.length) }
  | none => { rows := source, truncated := false }

/-! ## Connection Pool Manager circuit breaker (spec section 4.4; not
present in the sources) -/

/-- Modelled from the spec: health state of a data source. -/
inductive Health where
  | healthy
  | degraded
deriving Repr, DecidableEq

/-- Modelled from the spec: circuit-breaker configuration — the
consecutive-failure threshold N and the cooldown window length. -/
structure BreakerConfig where
  threshold : Nat
  cooldown : Nat
deriving Repr, DecidableEq

/-- Modelled from the spec: per-data-source circuit-breaker state —
health, the consecutive-failure counter, the time at which the cooldown
elapses, and whether the single half-open probe is already taken. -/
structure Breaker where
  health : Health
  consecutiveFailures : Nat
  cooldownUntil : Nat
  probeTaken : Bool
deriving Repr, DecidableEq

/-- Modelled from the spec: outcome of an acquire call on a pool. -/
inductive AcquireOutcome where
  | granted (isProbe : Bool)
  | serviceDegraded
deriving Repr, DecidableEq

/-- Modelled from the spec: record a failed execution at time `now`.
After N consecutive failures the source transitions to Degraded and the
cooldown window starts. -/
def recordFailure (cfg : BreakerConfig) (now : Nat) (b : Breaker) : Breaker :=
  if cfg.threshold ≤ b.consecutiveFailures + 1 then
    { health := .degraded, consecutiveFailures := b.consecutiveFailures + 1,
      cooldownUntil := now + cfg.cooldown, probeTaken := false }
  else
    { b with consecutiveFailures := b.consecutiveFailures + 1 }

/-- Modelled from the spec: record a successful execution (in particular
a successful probe): the source returns to Healthy and the failure
counter resets. -/
def recordSuccess (b : Breaker) : Breaker :=
  { health := .healthy, consecutiveFailures := 0,
    cooldownUntil := b.cooldownUntil, probeTaken := false }

/-- Modelled from the spec: acquire on the pool at time `now`. While
Degraded and before the cooldown elapses the call fails immediately with
ServiceDegraded and no network call is made; after the cooldown exactly
one probe is let through (half-open). The Bool reports whether a network
call is made. -/
def acquire (now : Nat) (b : Breaker) : Breaker × AcquireOutcome × Bool :=
  match b.health with
  | .healthy => (b, .granted false, true)
  | .degraded =>
    if now < b.cooldownUntil then (b, .serviceDegraded, false)
    else if b.probeTaken then (b, .serviceDegraded, false)
    else ({ b with probeTaken := true }, .granted true, true)

/-! ## Execution Coordinator (spec section 4.6; not present in the
sources) -/

/-- Modelled from the spec: the error taxonomy of the pipeline stages. -/
inductive PipelineError where
  | ambiguousIntent
  | unknownEntity
  | unsupportedOperation
  | policyViolation
  | timeout
  | connectionFailure
  | syntaxOrPermission
  | poolExhausted
  | serviceDegraded
deriving Repr, DecidableEq

/-- Modelled from the spec: a QueryRequest status. -/
inductive RequestStatus where
  | pending
  | parsing
  | synthesizing
  | validating
  | executing
  | completed
  | failed (e : PipelineError)
  | needsClarification
deriving Repr, DecidableEq

/-- Result of one pipeline stage. -/
inductive StageResult (A : Type) where
  | ok (a : A)
  | err (e : PipelineError)

/-- Modelled from the spec: how the coordinator maps a stage failure to a
terminal status — AmbiguousIntent becomes NeedsClarification, every other
error becomes Failed with the originating error attached. -/
def failStatus (e : PipelineError) : RequestStatus :=
  match e with
  | .ambiguousIntent => .needsClarification
  | e => .failed e

/-- Modelled from the spec: the four pipeline stages of a request, as
supplied behaviours (resolver, synthesizer, validator, executor). -/
structure PipelineStages (Req Intent Query Res : Type) where
  resolveStage : Req → StageResult Intent
  synthStage : Intent → StageResult Query
  validateStage : Query → StageResult Query
  executeStage : Query → StageResult Res

/-- Modelled from the spec: the Execution Coordinator's per-request state
machine, Pending through Completed, stopping at the first stage failure. -/
def runRequest {Req Intent Query Res : Type}
    (p : PipelineStages Req Intent Query Res) (r : Req) : RequestStatus :=
  match p.resolveStage r with
  | .err e => failStatus e
  | .ok i =>
    match p.synthStage i with
    | .err e => failStatus e
    | .ok q =>
      match p.validateStage q with
      | .err e => failStatus e
      | .ok q2 =>
        match p.executeStage q2 with
        | .err e => failStatus e
        | .ok _ => .completed

/-! ## Result Cache single-flight (spec section 4.5; not present in the
sources) -/

/-- Modelled from the spec: state of the single-flight Result Cache for
one fixed fingerprint — the callers awaiting the in-flight computation,
whether a computation is in flight, how many underlying executions have
started, which (caller, result) deliveries have happened, and the cached
immutable result once complete. -/
structure FlightState (A : Type) where
  waiters : List Nat
  inFlight : Bool
  execCount : Nat
  delivered : List (Nat × A)
  cached : Option A

/-- Modelled from the spec: interleaved events at one fingerprint — a
caller invoking get_or_compute, or the in-flight computation completing
with a result. -/
inductive FlightAction (A : Type) where
  | arrive (c : Nat)
  | complete (r : A)

/-- Initial single-flight state: no waiters, nothing in flight, nothing
cached. -/
def flightInit (A : Type) : FlightState A :=
  { waiters := [], inFlight := false, execCount := 0,
    delivered := [], cached := none }

/-- Modelled from the spec: one step of get_or_compute. An arriving
caller gets the cached result if present; otherwise it joins the
in-flight computation's waiters, or, when nothing is in flight, starts
the one underlying execution. Completion delivers the same immutable
result to every waiter and caches it. -/
def flightStep {A : Type} (s : FlightState A) : FlightAction A → FlightState A
  | .arrive c =>
    match s.cached with
    | some v => { s with delivered := s.delivered ++ [(c, v)] }
    | none =>
      if s.inFlight then { s with waiters := s.waiters ++ [c] }
      else { s with inFlight := true, waiters := [c],
                    execCount := s.execCount + 1 }
  | .complete r =>
    if s.inFlight then
      { waiters := [], inFlight := false, execCount := s.execCount,
        delivered := s.delivered ++ s.waiters.map (fun c => (c, r)),
        cached := some r }
    else s

/-- Run an interleaving of single-flight events from the initial state. -/
def flightRun {A : Type} (acts : List (FlightAction A)) : FlightState A :=
  acts.foldl flightStep (flightInit A)

/-! ## Dashboard Session Manager (spec section 4.7; not present in the
sources) -/

/-- Modelled from the spec: a DashboardEvent with its assigned sequence
number; the type, origin client and payload are collapsed into an opaque
payload since resequencing logic never inspects them. -/
structure DashboardEvent where
  seq : Nat
  payload : String
deriving Repr, DecidableEq

/-- Modelled from the spec: a DashboardSession — the monotonically
increasing sequence counter and the bounded ring buffer of the most
recent events. -/
structure DashboardSession where
  currentSeq : Nat
  bufferSize : Nat
  buffer : List DashboardEvent
deriving Repr, DecidableEq

/-- Modelled from the spec: publishing an event assigns the session's
next sequence number and appends it to the ring buffer, evicting the
oldest events beyond the buffer's size bound. -/
def publishEvent (s : DashboardSession) (payload : String) : DashboardSession :=
  let ev : DashboardEvent := { seq := s.currentSeq + 1, payload := payload }
  let b := s.buffer ++ [ev]
  { currentSeq := s.currentSeq + 1, bufferSize := s.bufferSize,
    buffer := b.drop (b.length - s.bufferSize) }

/-- Modelled from the spec: the server's answer to a subscribe/reconnect —
either an in-order replay of the missed events or a full state snapshot
from which the client resumes at the current sequence number. -/
inductive ResyncResponse where
  | replay (evs : List DashboardEvent)
  | snapshot (resumeSeq : Nat)
deriving Repr, DecidableEq

/-- Modelled from the spec: resync on client subscribe/reconnect with its
last-seen sequence number. If every missed event is still retained by the
ring buffer, the missed events are replayed in order; otherwise the
client receives a full snapshot and resumes from the current sequence
number. -/
def resync (s : DashboardSession) (lastSeen : Nat) : ResyncResponse :=
  if s.currentSeq ≤ lastSeen then .replay []
  else
    match s.buffer.head? with
    | some e =>
      if e.seq ≤ lastSeen + 1 then
        .replay (s.buffer.filter fun ev => lastSeen < ev.seq)
      else .snapshot s.currentSeq
    | none => .snapshot s.currentSeq

/-- Well-formedness of a session's ring buffer: it holds exactly the
most recent events, i.e. the consecutive sequence numbers ending at the
current one, and no more events than have been published. -/
def BufferInv (s : DashboardSession) : Prop :=
  s.buffer.map DashboardEvent.seq =
    List.range' (s.currentSeq + 1 - s.buffer.length) s.buffer.length ∧
  s.buffer.length ≤ s.currentSeq

/-! ## Theorems -/

theorem getPasswordStrength_fst (p : String) :
    (getPasswordStrength p).1 = passwordScore p := by
  simp only [getPasswordStrength]
  split_ifs <;> rfl

theorem passwordScore_le_six (p : String) : passwordScore p ≤ 6 := by
  unfold passwordScore
  split_ifs <;> omega

theorem passwordScore_of_rules (p : String) (h : meetsPasswordRules p = true) :
    4 ≤ passwordScore p := by
  unfold meetsPasswordRules at h
  simp only [Bool.and_eq_true, decide_eq_true_eq] at h
  obtain ⟨⟨⟨h8, hl⟩, hu⟩, hd⟩ := h
  unfold passwordScore
  split_ifs <;> simp_all

/-- C8: getPasswordStrength always scores between 0 and 6, labels "Weak"
exactly for scores ≤ 2, "Fair" exactly for scores 3 or 4, "Strong"
exactly for scores 5 or 6, and every password meeting the registration
schema's password rules scores at least 4 and is never labeled "Weak". -/
theorem getPasswordStrength_spec (p : String) :
    (getPasswordStrength p).1 ≤ 6 ∧
    ((getPasswordStrength p).2 = "Weak" ↔ (getPasswordStrength p).1 ≤ 2) ∧
    ((getPasswordStrength p).2 = "Fair" ↔
      ((getPasswordStrength p).1 = 3 ∨ (getPasswordStrength p).1 = 4)) ∧
    ((getPasswordStrength p).2 = "Strong" ↔
      ((getPasswordStrength p).1 = 5 ∨ (getPasswordStrength p).1 = 6)) ∧
    (meetsPasswordRules p = true →
      4 ≤ (getPasswordStrength p).1 ∧ (getPasswordStrength p).2 ≠ "Weak") := by
  have hle : passwordScore p ≤ 6 := passwordScore_le_six p
  have hfst := getPasswordStrength_fst p
  rw [hfst]
  by_cases h2 : passwordScore p ≤ 2
  · have hlab : (getPasswordStrength p).2 = "Weak" := by
      simp [getPasswordStrength, h2]
    rw [hlab]
    refine ⟨hle, ⟨fun _ => h2, fun _ => rfl⟩, ?_, ?_,
      fun hr => absurd (passwordScore_of_rules p hr) (by omega)⟩
    · exact ⟨fun h => absurd h (by decide), fun h => by omega⟩
    · exact ⟨fun h => absurd h (by decide), fun h => by omega⟩
  · by_cases h4 : passwordScore p ≤ 4
    · have hlab : (getPasswordStrength p).2 = "Fair" := by
        simp [getPasswordStrength, h2, h4]
      rw [hlab]
      refine ⟨hle, ?_, ⟨fun _ => by omega, fun _ => rfl⟩, ?_,
        fun hr => ⟨passwordScore_of_rules p hr, by decide⟩⟩
      · exact ⟨fun h => absurd h (by decide), fun h => by omega⟩
      · exact ⟨fun h => absurd h (by decide), fun h => by omega⟩
    · have hlab : (getPasswordStrength p).2 = "Strong" := by
        simp [getPasswordStrength, h2, h4]
      rw [hlab]
      refine ⟨hle, ?_, ?_, ⟨fun _ => by omega, fun _ => rfl⟩,
        fun hr => ⟨passwordScore_of_rules p hr, by decide⟩⟩
      · exact ⟨fun h => absurd h (by decide), fun h => by omega⟩
      · exact ⟨fun h => absurd h (by decide), fun h => by omega⟩

/-- Witness for C8: the conditional conjunct applied to the concrete
password "Passw0rd", which meets the registration password rules and is
labeled "Fair" with score 4. -/
theorem getPasswordStrength_spec_witness :
    4 ≤ (getPasswordStrength "Passw0rd").1 ∧
      (getPasswordStrength "Passw0rd").2 ≠ "Weak" :=
  (getPasswordStrength_spec "Passw0rd").2.2.2.2 (by decide)

theorem ite_nil_eq_nil {c : Prop} [Decidable c] (x : String) :
    ((if c then ([] : List String) else [x]) = []) ↔ c := by
  split_ifs with h
  · simp [h]
  · simp [h]

/-- C9: parsing a candidate registration with registerSchema succeeds
exactly when the full name has at least 2 characters, the email passes
the email validity test, the password meets the length/lowercase/
uppercase/digit rules, and password equals confirmPassword; in
particular no registration with mismatched password and confirmation
ever validates. This holds for every email-validity predicate, in
particular zod's. -/
theorem registerParse_spec (isValidEmail : String → Bool) (f : RegisterForm) :
    ((registerParse isValidEmail f).isSome = true ↔
      (2 ≤ f.fullName.length ∧ isValidEmail f.email = true ∧
       8 ≤ f.password.length ∧ f.password.data.any Char.isLower = true ∧
       f.password.data.any Char.isUpper = true ∧
       f.password.data.any Char.isDigit = true ∧
       f.password = f.confirmPassword)) ∧
    (f.password ≠ f.confirmPassword → registerParse isValidEmail f = none) := by
  have hiff : registerIssues isValidEmail f = [] ↔
      (2 ≤ f.fullName.length ∧ isValidEmail f.email = true ∧
       8 ≤ f.password.length ∧ f.password.data.any Char.isLower = true ∧
       f.password.data.any Char.isUpper = true ∧
       f.password.data.any Char.isDigit = true ∧
       f.password = f.confirmPassword) := by
    unfold registerIssues
    simp only [List.append_eq_nil, ite_nil_eq_nil]
    tauto
  constructor
  · unfold registerParse
    split_ifs with h
    · simp only [Option.isSome_some, true_iff]
      exact hiff.mp h
    · simp only [Option.isSome_none, Bool.false_eq_true, false_iff]
      intro hc
      exact h (hiff.mpr hc)
  · intro hne
    unfold registerParse
    split_ifs with h
    · exact absurd (hiff.mp h).2.2.2.2.2.2 hne
    · rfl

/-- Witness for C9: a concrete valid registration parses successfully,
and the same form with a mismatched confirmation does not. -/
theorem registerParse_spec_witness :
    (registerParse (fun e => e = "a@b.co") ⟨"Jane Smith", "a@b.co", "Passw0rd", "Passw0rd"⟩).isSome = true ∧
    registerParse (fun e => e = "a@b.co") ⟨"Jane Smith", "a@b.co", "Passw0rd", "Passw0rdX"⟩ = none :=
  ⟨(registerParse_spec (fun e => e = "a@b.co")
      ⟨"Jane Smith", "a@b.co", "Passw0rd", "Passw0rd"⟩).1.mpr
      (by refine ⟨by decide, by decide, by decide, by decide, by decide, by decide, rfl⟩),
   (registerParse_spec (fun e => e = "a@b.co")
      ⟨"Jane Smith", "a@b.co", "Passw0rd", "Passw0rdX"⟩).2 (by decide)⟩

/-- C10: for every 401 response error, a token refresh is attempted
exactly once precisely when a refresh token is stored and the request
has not already been retried; a replay only happens on a successful
refresh, carries the retry flag so the replayed request is never
refreshed again on a second 401; and in every other 401 case (no stored
refresh token, an already-retried request, or a failed refresh) both
tokens are removed and the browser is redirected to /login. -/
theorem interceptor_401_spec (st : BrowserState) (status : Nat)
    (retryFlag : Bool) (refresh : RefreshOutcome) (h401 : status = 401) :
    ((handleResponseError st status retryFlag refresh).2.2 = 1 ↔
      (st.refreshToken.isSome = true ∧ retryFlag = false)) ∧
    (∀ tok rf, (handleResponseError st status retryFlag refresh).2.1 = .replay tok rf →
      rf = true ∧ refresh = .ok tok ∧
      ∀ st2 refresh2, (handleResponseError st2 401 rf refresh2).2.2 = 0 ∧
        (handleResponseError st2 401 rf refresh2).1.accessToken = none ∧
        (handleResponseError st2 401 rf refresh2).1.refreshToken = none ∧
        (handleResponseError st2 401 rf refresh2).1.location = "/login") ∧
    ((st.refreshToken = none ∨ retryFlag = true ∨ refresh = .failed) →
      (handleResponseError st status retryFlag refresh).1.accessToken = none ∧
      (handleResponseError st status retryFlag refresh).1.refreshToken = none ∧
      (handleResponseError st status retryFlag refresh).1.location = "/login" ∧
      (handleResponseError st status retryFlag refresh).2.1 = .reject) := by
  subst h401
  rcases st with ⟨acc, rt, loc⟩
  rcases rt with _ | rtok <;> rcases retryFlag with _ | _ <;>
    rcases refresh with tok | _ <;>
    simp [handleResponseError]

/-- Witness for C10: with a stored refresh token, an unretried request
and a failing refresh endpoint, the single refresh attempt is made and
the browser ends up with both tokens cleared at /login. -/
theorem interceptor_401_spec_witness :
    (handleResponseError ⟨some "acc", some "ref", "/dash"⟩ 401 false .failed).2.2 = 1 ∧
    (handleResponseError ⟨some "acc", some "ref", "/dash"⟩ 401 false .failed).1.location = "/login" :=
  ⟨((interceptor_401_spec ⟨some "acc", some "ref", "/dash"⟩ 401 false .failed rfl).1).mpr
      ⟨rfl, rfl⟩,
   ((interceptor_401_spec ⟨some "acc", some "ref", "/dash"⟩ 401 false .failed rfl).2.2
      (Or.inr (Or.inr rfl))).2.2.1⟩

theorem filterConds_mapValue (d : Dialect) (g : String → String) :
    ∀ (k : Nat) (fs : List IntentFilter),
      filterConds d k (fs.map fun f => { f with value := g f.value }) =
        filterConds d k fs
  | _, [] => rfl
  | k, f :: fs => by
    simp only [List.map_cons, filterConds]
    rw [filterConds_mapValue d g (k + 1) fs]

theorem sqlText_mapLiterals (d : Dialect) (g : String → String) (i : QueryIntent) :
    sqlText d (mapLiterals g i) = sqlText d i := by
  rcases i with ⟨op, metric, dims, table, tr, fs, sort, lim⟩
  rcases tr with _ | t <;>
    simp [mapLiterals, sqlText, selectList, whereClause, timeConds, timeParamCount,
          groupByClause, orderByClause, filterConds_mapValue]

/-- C1: every user-supplied literal of the intent (time-range bounds and
filter values) becomes a bound parameter — the synthesizer's ordered
parameter list is exactly the intent's literal values — and the generated
SQL text is independent of those literal values (replacing every literal
by an arbitrary other string leaves the SQL text unchanged, for every
dialect), i.e. no literal is ever string-interpolated into the text: a
literal can occur in the SQL text only coincidentally, never through a
path from the literal itself, so every literal appears only as a bound
parameter. -/
theorem synthesize_binds_all_literals (i : QueryIntent) (d : Dialect) :
    (synthesize i d).params = literalValues i ∧
    ∀ g : String → String,
      (synthesize (mapLiterals g i) d).sql = (synthesize i d).sql := by
  refine ⟨rfl, fun g => ?_⟩
  simpa [synthesize] using sqlText_mapLiterals d g i

/-- C2: SQL synthesis is deterministic — it is a pure function of the
(intent, dialect) pair, so any two invocations on identical inputs
produce identical SQL text and identical parameter ordering. -/
theorem synthesize_deterministic (i1 i2 : QueryIntent) (d1 d2 : Dialect)
    (hi : i1 = i2) (hd : d1 = d2) :
    (synthesize i1 d1).sql = (synthesize i2 d2).sql ∧
    (synthesize i1 d1).params = (synthesize i2 d2).params := by
  subst hi
  subst hd
  exact ⟨rfl, rfl⟩

/-- Witness for C2: two invocations on the Scenario A intent over the
postgres dialect agree on SQL text and parameter order. -/
theorem synthesize_deterministic_witness :
    (synthesize ⟨.sum, some "amount", ["region"], "sales",
        some ⟨"date", "2024-01-01", "2024-04-01"⟩, [], none, some 1000⟩ .postgres).sql =
      (synthesize ⟨.sum, some "amount", ["region"], "sales",
        some ⟨"date", "2024-01-01", "2024-04-01"⟩, [], none, some 1000⟩ .postgres).sql ∧
    (synthesize ⟨.sum, some "amount", ["region"], "sales",
        some ⟨"date", "2024-01-01", "2024-04-01"⟩, [], none, some 1000⟩ .postgres).params =
      (synthesize ⟨.sum, some "amount", ["region"], "sales",
        some ⟨"date", "2024-01-01", "2024-04-01"⟩, [], none, some 1000⟩ .postgres).params :=
  synthesize_deterministic _ _ _ _ rfl rfl

/-- C4: for every intent, dialect, global maximum and data source
content, the row count of the execution result of the validated query
never exceeds the global maximum, and whenever the synthesizer omitted a
row limit the Safety Validator injects an explicit row-limit clause equal
to the global maximum. -/
theorem rowCap_spec {Row : Type} (globalMax : Nat) (i : QueryIntent)
    (d : Dialect) (source : List Row) :
    (executeQuery source (validateLimit globalMax (synthesize i d))).rows.length ≤
      globalMax ∧
    (i.limit = none →
      (validateLimit globalMax (synthesize i d)).limitClause = some globalMax) := by
  rcases hlim : i.limit with _ | n
  · constructor
    · simp [synthesize, validateLimit, executeQuery, hlim, List.length_take]
    · intro _
      simp [synthesize, validateLimit, hlim]
  · constructor
    · simp only [synthesize, validateLimit, executeQuery, hlim, List.length_take]
      omega
    · intro hc
      exact absurd hc (by simp)

/-- Witness for C4: a three-row source with global maximum 2 and an
intent without a limit yields at most 2 rows, and the validator injected
the LIMIT 2 clause. -/
theorem rowCap_spec_witness :
    (executeQuery [10, 20, 30]
        (validateLimit 2 (synthesize ⟨.raw, none, ["c"], "t", none, [], none, none⟩
          .sqlite))).rows.length ≤ 2 ∧
    (validateLimit 2 (synthesize ⟨.raw, none, ["c"], "t", none, [], none, none⟩
        .sqlite)).limitClause = some 2 :=
  ⟨(rowCap_spec 2 ⟨.raw, none, ["c"], "t", none, [], none, none⟩ .sqlite [10, 20, 30]).1,
   (rowCap_spec 2 ⟨.raw, none, ["c"], "t", none, [], none, none⟩ .sqlite [10, 20, 30]).2 rfl⟩


/-- C5: the circuit-breaker state machine — a Healthy source turns
Degraded only when the consecutive-failure count reaches the threshold N
(below it the source stays Healthy); while Degraded and before the
cooldown elapses every acquire fails immediately with ServiceDegraded
and makes no network call; once the cooldown has elapsed the next
acquire is granted as the single probe, and any acquire while that probe
is outstanding is again refused without a network call; a successful
probe returns the source to Healthy and resets the failure counter; a
failed probe restarts the cooldown, blocking acquires until the new
window elapses. -/
theorem circuitBreaker_spec (cfg : BreakerConfig) (b : Breaker) (now : Nat) :
    (b.health = .healthy → (recordFailure cfg now b).health = .degraded →
      cfg.threshold ≤ b.consecutiveFailures + 1 ∧
      (recordFailure cfg now b).consecutiveFailures = b.consecutiveFailures + 1) ∧
    (b.health = .healthy → b.consecutiveFailures + 1 < cfg.threshold →
      (recordFailure cfg now b).health = .healthy) ∧
    (b.health = .degraded → now < b.cooldownUntil →
      acquire now b = (b, .serviceDegraded, false)) ∧
    (b.health = .degraded → b.cooldownUntil ≤ now → b.probeTaken = false →
      (acquire now b).2.1 = .granted true ∧
      (acquire now b).1.probeTaken = true ∧
      ∀ now2, (acquire now2 (acquire now b).1).2.1 = .serviceDegraded ∧
        (acquire now2 (acquire now b).1).2.2 = false) ∧
    ((recordSuccess b).health = .healthy ∧
      (recordSuccess b).consecutiveFailures = 0) ∧
    (cfg.threshold ≤ b.consecutiveFailures + 1 →
      (recordFailure cfg now b).health = .degraded ∧
      (recordFailure cfg now b).cooldownUntil = now + cfg.cooldown ∧
      ∀ t, t < now + cfg.cooldown →
        (acquire t (recordFailure cfg now b)).2.1 = .serviceDegraded ∧
        (acquire t (recordFailure cfg now b)).2.2 = false) := by
  obtain ⟨bh, bc, bu, bp⟩ := b
  refine ⟨?_, ?_, ?_, ?_, ⟨rfl, rfl⟩, ?_⟩
  · intro hh hd
    simp only at hh
    subst hh
    unfold recordFailure at hd ⊢
    split_ifs at hd ⊢ with hth
    exact ⟨hth, rfl⟩
  · intro hh hlt
    simp only at hh hlt
    subst hh
    have hth : ¬ cfg.threshold ≤ bc + 1 := by omega
    simp [recordFailure, hth]
  · intro hh hlt
    simp only at hh hlt
    subst hh
    simp [acquire, hlt]
  · intro hh hle hpr
    simp only at hh hle hpr
    subst hh
    subst hpr
    have hnl : ¬ now < bu := by omega
    refine ⟨by simp [acquire, hnl], by simp [acquire, hnl], fun now2 => ?_⟩
    by_cases h2 : now2 < bu <;> simp [acquire, hnl, h2]
  · intro hth
    simp only at hth
    unfold recordFailure
    split_ifs with h
    · refine ⟨rfl, rfl, fun t ht => ?_⟩
      simp [acquire, ht]
    · exact absurd hth h

/-- Witness for C5 (Scenario C shape, threshold 3, cooldown 10): a
Healthy source at 2 consecutive failures turns Degraded on the third
failure at time 5 with a cooldown window ending at 15, every acquire
before 15 fails immediately with ServiceDegraded and no network call,
and on a Degraded source whose cooldown has elapsed the next acquire is
granted as the single probe. -/
theorem circuitBreaker_spec_witness :
    ((recordFailure ⟨3, 10⟩ 5 ⟨.healthy, 2, 0, false⟩).health = .degraded ∧
      (recordFailure ⟨3, 10⟩ 5 ⟨.healthy, 2, 0, false⟩).cooldownUntil = 5 + 10 ∧
      ∀ t, t < 5 + 10 →
        (acquire t (recordFailure ⟨3, 10⟩ 5 ⟨.healthy, 2, 0, false⟩)).2.1 = .serviceDegraded ∧
        (acquire t (recordFailure ⟨3, 10⟩ 5 ⟨.healthy, 2, 0, false⟩)).2.2 = false) ∧
    (acquire 20 ⟨.degraded, 3, 15, false⟩).2.1 = .granted true :=
  ⟨(circuitBreaker_spec ⟨3, 10⟩ ⟨.healthy, 2, 0, false⟩ 5).2.2.2.2.2 (by decide),
   ((circuitBreaker_spec ⟨3, 10⟩ ⟨.degraded, 3, 15, false⟩ 20).2.2.2.1 rfl
      (by decide) rfl).1⟩

/-- C6: a failure in any of the four pipeline stages moves the request's
status directly to Failed with the originating error attached, with the
single exception that an AmbiguousIntent outcome moves the request to
NeedsClarification instead (the failure-status map sends AmbiguousIntent
to NeedsClarification and every other error e to Failed e). -/
theorem coordinator_failure_spec {Req Intent Query Res : Type}
    (p : PipelineStages Req Intent Query Res) (r : Req) (e : PipelineError) :
    (failStatus e =
      if e = .ambiguousIntent then .needsClarification else .failed e) ∧
    (p.resolveStage r = .err e → runRequest p r = failStatus e) ∧
    (∀ i, p.resolveStage r = .ok i → p.synthStage i = .err e →
      runRequest p r = failStatus e) ∧
    (∀ i q, p.resolveStage r = .ok i → p.synthStage i = .ok q →
      p.validateStage q = .err e → runRequest p r = failStatus e) ∧
    (∀ i q q2, p.resolveStage r = .ok i → p.synthStage i = .ok q →
      p.validateStage q = .ok q2 → p.executeStage q2 = .err e →
      runRequest p r = failStatus e) := by
  refine ⟨by cases e <;> simp [failStatus], ?_, ?_, ?_, ?_⟩
  · intro h1
    simp only [runRequest, h1]
  · intro i h1 h2
    simp only [runRequest, h1, h2]
  · intro i q h1 h2 h3
    simp only [runRequest, h1, h2, h3]
  · intro i q q2 h1 h2 h3 h4
    simp only [runRequest, h1, h2, h3, h4]

/-- Witness for C6: a pipeline whose validator rejects with
PolicyViolation drives the request to Failed PolicyViolation, and one
whose resolver reports AmbiguousIntent drives it to NeedsClarification. -/
theorem coordinator_failure_spec_witness :
    runRequest (⟨fun n => .ok n, fun n => .ok n, fun _ => .err .policyViolation,
       fun n => .ok n⟩ : PipelineStages Nat Nat Nat Nat) 7 =
      .failed .policyViolation ∧
    runRequest (⟨fun _ => .err .ambiguousIntent, fun n => .ok n, fun n => .ok n,
       fun n => .ok n⟩ : PipelineStages Nat Nat Nat Nat) 7 =
      .needsClarification :=
  ⟨(coordinator_failure_spec
      ⟨fun n => .ok n, fun n => .ok n, fun _ => .err .policyViolation,
       fun n => .ok n⟩ 7 .policyViolation).2.2.2.1 7 7 rfl rfl rfl,
   (coordinator_failure_spec
      ⟨fun _ => .err .ambiguousIntent, fun n => .ok n, fun n => .ok n,
       fun n => .ok n⟩ 7 .ambiguousIntent).2.1 rfl⟩

theorem flight_arrivals_join {A : Type} :
    ∀ (cs : List Nat) (s : FlightState A),
      s.cached = none → s.inFlight = true →
      (cs.map FlightAction.arrive).foldl flightStep s =
        { s with waiters := s.waiters ++ cs }
  | [], s, hc, hf => by simp
  | c :: cs, s, hc, hf => by
    simp only [List.map_cons, List.foldl_cons]
    have hstep : flightStep s (.arrive c) = { s with waiters := s.waiters ++ [c] } := by
      unfold flightStep
      rw [hc]
      simp [hf]
    rw [hstep, flight_arrivals_join cs { s with waiters := s.waiters ++ [c] } hc hf]
    simp

/-- C3: single-flight semantics of the Result Cache — for a fixed
fingerprint starting from the empty cache state, when any non-empty set
of callers invokes get_or_compute in any arrival order while the
computation is in progress (all arrivals precede the completion), the
compute function executes exactly once, every caller is delivered the
one result of that single execution, and all deliveries are equal. -/
theorem singleFlight_spec {A : Type} (cs : List Nat) (r : A) (hne : cs ≠ []) :
    (flightRun (cs.map FlightAction.arrive ++ [FlightAction.complete r])).execCount = 1 ∧
    (∀ c ∈ cs, (c, r) ∈
      (flightRun (cs.map FlightAction.arrive ++ [FlightAction.complete r])).delivered) ∧
    (∀ q ∈ (flightRun (cs.map FlightAction.arrive ++ [FlightAction.complete r])).delivered,
      q.2 = r) := by
  rcases cs with _ | ⟨c0, cs⟩
  · exact absurd rfl hne
  have hrun : flightRun ((c0 :: cs).map FlightAction.arrive ++ [FlightAction.complete r]) =
      { waiters := [], inFlight := false, execCount := 1,
        delivered := (c0 :: cs).map (fun c => (c, r)), cached := some r } := by
    unfold flightRun
    rw [List.foldl_append]
    have h1 : ((c0 :: cs).map FlightAction.arrive).foldl flightStep (flightInit A) =
        { waiters := [c0] ++ cs, inFlight := true, execCount := 1,
          delivered := [], cached := none } := by
      simp only [List.map_cons, List.foldl_cons]
      have hstep : flightStep (flightInit A) (.arrive c0) =
          { waiters := [c0], inFlight := true, execCount := 1,
            delivered := [], cached := none } := by
        unfold flightStep flightInit
        simp
      rw [hstep, flight_arrivals_join cs _ rfl rfl]
    rw [h1]
    unfold flightStep
    simp
  rw [hrun]
  refine ⟨rfl, fun c hc => ?_, fun q hq => ?_⟩
  · exact List.mem_map_of_mem (fun c => (c, r)) hc
  · obtain ⟨c, _, hcq⟩ := List.mem_map.mp hq
    rw [← hcq]

/-- Witness for C3 (Scenario B shape): three concurrent callers within
one in-flight window trigger exactly one execution and all three receive
the same result. -/
theorem singleFlight_spec_witness :
    (flightRun ([1, 2, 3].map FlightAction.arrive ++
        [FlightAction.complete "rows"])).execCount = 1 ∧
    ((2, "rows") ∈ (flightRun ([1, 2, 3].map FlightAction.arrive ++
        [FlightAction.complete "rows"])).delivered) :=
  ⟨(singleFlight_spec [1, 2, 3] "rows" (by decide)).1,
   (singleFlight_spec [1, 2, 3] "rows" (by decide)).2.1 2 (by decide)⟩

theorem drop_range' : ∀ (m a n : Nat),
    (List.range' a n).drop m = List.range' (a + m) (n - m)
  | 0, a, n => by simp
  | m + 1, a, 0 => by simp
  | m + 1, a, n + 1 => by
    rw [List.range'_succ, List.drop_succ_cons, drop_range' m (a + 1) n]
    congr 1 <;> omega

theorem publishEvent_inv (s : DashboardSession) (payload : String)
    (h : BufferInv s) : BufferInv (publishEvent s payload) := by
  obtain ⟨hmap, hlen⟩ := h
  have hbuf : ((s.buffer ++ [({ seq := s.currentSeq + 1, payload := payload } : DashboardEvent)]).map
      DashboardEvent.seq) =
      List.range' (s.currentSeq + 1 - s.buffer.length) (s.buffer.length + 1) := by
    have harith : s.currentSeq + 1 - s.buffer.length + s.buffer.length =
        s.currentSeq + 1 := by omega
    rw [List.map_append, hmap, List.range'_1_concat, harith]
    rfl
  unfold publishEvent BufferInv
  simp only [List.length_append, List.length_cons, List.length_nil, List.length_drop]
  constructor
  · rw [List.map_drop, hbuf, drop_range']
    congr 1
    omega
  · omega

/-- C7: resynchronization of a dashboard session whose ring buffer is
well-formed — a replay answer delivers events with strictly increasing
(hence non-decreasing) sequence numbers which are exactly the events the
client missed (every sequence number between last-seen and current is
replayed, and nothing else), a snapshot answer always resumes from the
current sequence number, every subscribe gets one of the two (no silent
loss), a gap extending past the oldest retained event always forces a
full snapshot (Scenario D), and publishing keeps the ring buffer
well-formed. -/
theorem dashboard_resync_spec (s : DashboardSession) (lastSeen : Nat)
    (h : BufferInv s) :
    (∀ evs, resync s lastSeen = .replay evs →
      List.Pairwise (fun e1 e2 => e1.seq < e2.seq) evs ∧
      (∀ n, lastSeen < n → n ≤ s.currentSeq → ∃ ev ∈ evs, ev.seq = n) ∧
      (∀ ev ∈ evs, lastSeen < ev.seq ∧ ev.seq ≤ s.currentSeq)) ∧
    (∀ q, resync s lastSeen = .snapshot q → q = s.currentSeq) ∧
    ((∃ evs, resync s lastSeen = .replay evs) ∨
      resync s lastSeen = .snapshot s.currentSeq) ∧
    (lastSeen < s.currentSeq → ∀ e, s.buffer.head? = some e →
      lastSeen + 1 < e.seq → resync s lastSeen = .snapshot s.currentSeq) ∧
    (∀ payload, BufferInv (publishEvent s payload)) := by
  obtain ⟨hmap, hlen⟩ := h
  have hhead : ∀ e, s.buffer.head? = some e →
      e.seq = s.currentSeq + 1 - s.buffer.length := by
    intro e he
    have h1 : (List.range' (s.currentSeq + 1 - s.buffer.length)
        s.buffer.length).head? = some e.seq := by
      rw [← hmap, List.head?_map, he]
      rfl
    have hLpos : ¬ s.buffer.length = 0 := by
      intro h0
      rw [List.length_eq_zero] at h0
      rw [h0] at he
      exact absurd he (by simp)
    rw [List.head?_range', if_neg hLpos] at h1
    exact (Option.some_inj.mp h1).symm
  have hbound : ∀ ev ∈ s.buffer,
      s.currentSeq + 1 - s.buffer.length ≤ ev.seq ∧ ev.seq ≤ s.currentSeq := by
    intro ev hev
    have hm : ev.seq ∈ s.buffer.map DashboardEvent.seq :=
      List.mem_map_of_mem _ hev
    rw [hmap] at hm
    have := List.mem_range'_1.mp hm
    omega
  have hpw : List.Pairwise (fun e1 e2 => e1.seq < e2.seq) s.buffer := by
    have hr := List.pairwise_lt_range'
      (s.currentSeq + 1 - s.buffer.length) s.buffer.length
    rw [← hmap] at hr
    exact List.pairwise_map.mp hr
  refine ⟨?_, ?_, ?_, ?_, fun payload => publishEvent_inv s payload ⟨hmap, hlen⟩⟩
  · intro evs hevs
    unfold resync at hevs
    split_ifs at hevs with hcur
    · injection hevs with hevs
      subst hevs
      exact ⟨by simp, fun n hn1 hn2 => by omega, by simp⟩
    · cases hh : s.buffer.head? with
      | none =>
        rw [hh] at hevs
        exact absurd hevs (by simp)
      | some e =>
        rw [hh] at hevs
        simp only at hevs
        split_ifs at hevs with hgap
        · injection hevs with hevs
          subst hevs
          refine ⟨hpw.filter _, ?_, ?_⟩
          · intro n hn1 hn2
            have hes := hhead e hh
            have hnm : n ∈ s.buffer.map DashboardEvent.seq := by
              rw [hmap]
              exact List.mem_range'_1.mpr ⟨by omega, by omega⟩
            obtain ⟨ev, hev, hevseq⟩ := List.mem_map.mp hnm
            refine ⟨ev, List.mem_filter.mpr ⟨hev, ?_⟩, hevseq⟩
            simp only [decide_eq_true_eq, hevseq]
            omega
          · intro ev hev
            obtain ⟨hev2, hp⟩ := List.mem_filter.mp hev
            have hb := hbound ev hev2
            simp only [decide_eq_true_eq] at hp
            exact ⟨hp, hb.2⟩
  · intro q hq
    unfold resync at hq
    split_ifs at hq with hcur
    cases hh : s.buffer.head? with
    | none =>
      rw [hh] at hq
      simp only [ResyncResponse.snapshot.injEq] at hq
      exact hq.symm
    | some e =>
      rw [hh] at hq
      simp only at hq
      split_ifs at hq with hgap
      simp only [ResyncResponse.snapshot.injEq] at hq
      exact hq.symm
  · unfold resync
    split_ifs with hcur
    · exact Or.inl ⟨[], rfl⟩
    · cases hh : s.buffer.head? with
      | none => exact Or.inr rfl
      | some e =>
        by_cases hgap : e.seq ≤ lastSeen + 1
        · exact Or.inl ⟨s.buffer.filter (fun ev => decide (lastSeen < ev.seq)),
            by simp [hgap]⟩
        · exact Or.inr (by simp [hgap])
  · intro hcur e hh hgap
    unfold resync
    rw [hh]
    have h1 : ¬ s.currentSeq ≤ lastSeen := by omega
    have h2 : ¬ e.seq ≤ lastSeen + 1 := by omega
    simp [h1, h2]

/-- Witness for C7 (Scenario D): a session at sequence number 100 whose
ring buffer retains events 50–100; a client reconnecting with last-seen
sequence number 40 receives a full snapshot resuming at 100, not a
partial replay. -/
theorem dashboard_resync_spec_witness :
    resync ⟨100, 51, (List.range' 50 51).map (fun n => ⟨n, "ev"⟩)⟩ 40 =
      .snapshot 100 :=
  (dashboard_resync_spec ⟨100, 51, (List.range' 50 51).map (fun n => ⟨n, "ev"⟩)⟩
      40 (by constructor <;> decide)).2.2.2.1 (by decide) ⟨50, "ev"⟩ (by decide)
      (by decide)
